import Mathlib

/-!
Shallow embedding of the filter-translation and query-execution engine of
`mcp_server_firebase` (files `firebase_client.py` and `server.py`), together
with theorems checking the specification's claims against it.

Python dynamic values that can appear as filter values or stored document
fields are modelled by the inductive `PyVal`; dictionaries by association
lists; raised exceptions by `Except String`.  The external stores (Firestore
and the storage bucket) are modelled from the spec: a Firestore holds, per
collection name, a list of documents and an optional failure message, and a
bucket holds a list of blobs and an optional listing failure.
-/

/-- A Python value as it can appear in filter mappings and stored documents:
a string, an integer, a datetime (modelled as an integer timestamp),
`None`, or a list. -/
inductive PyVal where
  | vstr : String → PyVal
  | vint : Int → PyVal
  | vdate : Int → PyVal
  | vnone : PyVal
  | vlist : List PyVal → PyVal

mutual

/-- Python `==` on the modelled values: structural equality (no cross-type
equalities arise between the constructors modelled here). -/
def pyEq : PyVal → PyVal → Bool
  | .vstr a, .vstr b => a == b
  | .vint a, .vint b => a == b
  | .vdate a, .vdate b => a == b
  | .vnone, .vnone => true
  | .vlist a, .vlist b => pyEqList a b
  | _, _ => false

/-- Python `==` on lists, elementwise. -/
def pyEqList : List PyVal → List PyVal → Bool
  | [], [] => true
  | x :: xs, y :: ys => pyEq x y && pyEqList xs ys
  | _, _ => false

end

/-- Python truthiness for the values of `PyVal` (`if value:`). -/
def truthy : PyVal → Bool
  | .vstr s => !(s == "")
  | .vint n => !(n == 0)
  | .vdate _ => true
  | .vnone => false
  | .vlist l => !l.isEmpty

/-- A Python dict is modelled as an association list; lookup takes the
first binding of the key (keys are unique in a real dict). -/
def lookupKey : List (String × PyVal) → String → Option PyVal
  | [], _ => none
  | (k0, v0) :: rest, k => if k0 == k then some v0 else lookupKey rest k

/-- Python dict assignment `d[k] = v`: replace the first binding of `k`,
or append a new binding if the key is absent. -/
def setKey : List (String × PyVal) → String → PyVal → List (String × PyVal)
  | [], k, v => [(k, v)]
  | (k0, v0) :: rest, k, v =>
      if k0 == k then (k, v) :: rest else (k0, v0) :: setKey rest k v

/-- Python `s.startswith(p)`: `p` is a prefix of `s` (stated on the
character lists so that it evaluates by kernel reduction). -/
def strStartsWith (s p : String) : Bool := p.data.isPrefixOf s.data

/-- Python slicing `s[n:]`. -/
def strDrop (s : String) (n : Nat) : String := String.mk (s.data.drop n)

/-- A compiled Firestore `FieldFilter`: field name, operator string as the
code passes it (`"=="`, `">="`, `"<="`, `"array_contains_any"`), operand. -/
structure Clause where
  field : String
  op : String
  value : PyVal

/-- `FirebaseClient._apply_filters`: fold over the filter mapping, adding at
most one `where` clause per field.  `pd` models `dateutil.parser.parse`
(`none` = the `ValueError` the code catches). -/
def applyFilters (pd : String → Option Int) (q : List Clause) :
    List (String × PyVal) → List Clause
  | [] => q
  | (f, value) :: rest =>
      let q2 :=
        match value with
        | .vstr s =>
            if strStartsWith s ">=" then
              match pd (strDrop s 2) with
              | some d => q ++ [⟨f, ">=", .vdate d⟩]
              | none => q
            else if strStartsWith s "<=" then
              match pd (strDrop s 2) with
              | some d => q ++ [⟨f, "<=", .vdate d⟩]
              | none => q
            else q ++ [⟨f, "==", .vstr s⟩]
        | .vlist l => q ++ [⟨f, "array_contains_any", .vlist l⟩]
        | v => q ++ [⟨f, "==", v⟩]
      applyFilters pd q2 rest

/-- The clause (if any) that `_apply_filters` adds for one field. -/
def clauseOf (pd : String → Option Int) (f : String) : PyVal → Option Clause
  | .vstr s =>
      if strStartsWith s ">=" then
        match pd (strDrop s 2) with
        | some d => some ⟨f, ">=", .vdate d⟩
        | none => none
      else if strStartsWith s "<=" then
        match pd (strDrop s 2) with
        | some d => some ⟨f, "<=", .vdate d⟩
        | none => none
      else some ⟨f, "==", .vstr s⟩
  | .vlist l => some ⟨f, "array_contains_any", .vlist l⟩
  | v => some ⟨f, "==", v⟩

/-- A stored Firestore document: its store-assigned key and its field data
(`doc.id` and `doc.to_dict()`). -/
structure Doc where
  id : String
  data : List (String × PyVal)

/-- Greater-or-equal comparison as the store evaluates a `">="` clause:
same-type numeric/timestamp comparison; mismatched types never match.
Modelled from the spec: `DateAtLeast` is a "greater than or equal"
comparison against the parsed timestamp. -/
def pyGe : PyVal → PyVal → Bool
  | .vint a, .vint b => b ≤ a
  | .vdate a, .vdate b => b ≤ a
  | _, _ => false

/-- Less-or-equal comparison as the store evaluates a `"<="` clause.
Modelled from the spec: `DateAtMost` is a "less than or equal" comparison. -/
def pyLe : PyVal → PyVal → Bool
  | .vint a, .vint b => a ≤ b
  | .vdate a, .vdate b => a ≤ b
  | _, _ => false

/-- Whether one document satisfies one compiled clause.  Modelled from the
spec (§4.2): Equals → equality, date bounds → ordered comparison,
ArrayContainsAny → membership of any operand element; a document lacking
the field matches no clause. -/
def docMatches (d : Doc) (c : Clause) : Bool :=
  match lookupKey d.data c.field with
  | none => false
  | some fv =>
      if c.op == "==" then pyEq fv c.value
      else if c.op == ">=" then pyGe fv c.value
      else if c.op == "<=" then pyLe fv c.value
      else if c.op == "array_contains_any" then
        match fv, c.value with
        | .vlist elems, .vlist ops => elems.any (fun e => ops.any (fun o => pyEq e o))
        | _, _ => false
      else false

/-- The external Firestore store, modelled from the spec: per collection
name, the stored documents and an optional failure (auth/network/not-found)
that streaming that collection would raise. -/
structure Firestore where
  docs : String → List Doc
  fail : String → Option String

/-- Executing a compiled query: the clauses combine conjunctively (AND)
over the collection; a store failure surfaces as a raised error.
Modelled from the spec (§4.2). -/
def Firestore.stream (db : Firestore) (col : String) (cls : List Clause) :
    Except String (List Doc) :=
  match db.fail col with
  | some m => .error m
  | none => .ok ((db.docs col).filter (fun d => cls.all (fun c => docMatches d c)))

/-- A blob of the storage bucket with the metadata the code reads
(`content_type` and `time_created` may be `None` in Python). -/
structure Blob where
  name : String
  size : Int
  content_type : Option String
  time_created : Option Int
  public_url : String
  etag : String
  generation : Int

/-- The storage bucket, modelled from the spec: its blobs and an optional
failure that listing would raise. -/
structure Bucket where
  blobs : List Blob
  listFail : Option String

/-- `bucket.list_blobs(prefix=p)`: all blobs whose name starts with the
prefix; `None` lists everything; a non-string non-None prefix is a type
error.  Modelled from the spec (path-prefix listing). -/
def Bucket.list_blobs (b : Bucket) (p : PyVal) : Except String (List Blob) :=
  match b.listFail with
  | some m => .error m
  | none =>
      match p with
      | .vstr s => .ok (b.blobs.filter (fun bl => strStartsWith bl.name s))
      | .vnone => .ok b.blobs
      | _ => .error "TypeError: prefix must be a string"

/-- The `FirebaseClient` state: the store handles are `None` until
`initialize` has run. -/
structure FirebaseClient where
  _db : Option Firestore
  _bucket : Option Bucket

/-- The message of the `RuntimeError` raised by the `db`/`bucket`
properties before initialization. -/
def notInitMsg : String := "Firebase client not initialized"

/-- The `FirebaseClient.db` property: raises before initialization. -/
def FirebaseClient.getDb (c : FirebaseClient) : Except String Firestore :=
  match c._db with
  | none => .error notInitMsg
  | some d => .ok d

/-- The `FirebaseClient.bucket` property: raises before initialization. -/
def FirebaseClient.getBucket (c : FirebaseClient) : Except String Bucket :=
  match c._bucket with
  | none => .error notInitMsg
  | some b => .ok b

/-- `doc.to_dict()` followed by `data["id"] = doc.id`: the record a
collection search emits for one document. -/
def normalizeDoc (d : Doc) : List (String × PyVal) :=
  setKey d.data "id" (.vstr d.id)

/-- The clauses a collection search applies: `if filters:` (Python
truthiness — `None` and the empty dict both skip `_apply_filters`). -/
def clausesOfFilters (pd : String → Option Int)
    (filters : Option (List (String × PyVal))) : List Clause :=
  match filters with
  | none => []
  | some fs => if fs.isEmpty then [] else applyFilters pd [] fs

/-- The common body of `search_assets` / `search_versions` /
`search_comments`, which the source duplicates verbatim per collection:
build the query, stream it, inject `id` into each document; the outer
`except` re-raises every exception unchanged. -/
def searchCollection (pd : String → Option Int) (c : FirebaseClient)
    (col : String) (filters : Option (List (String × PyVal))) :
    Except String (List (List (String × PyVal))) :=
  match c.getDb with
  | .error m => .error m
  | .ok db =>
      match db.stream col (clausesOfFilters pd filters) with
      | .error m => .error m
      | .ok docs => .ok (docs.map normalizeDoc)

/-- `FirebaseClient.search_assets`. -/
def search_assets (pd : String → Option Int) (c : FirebaseClient)
    (filters : Option (List (String × PyVal))) :
    Except String (List (List (String × PyVal))) :=
  searchCollection pd c "assets" filters

/-- `FirebaseClient.search_versions`. -/
def search_versions (pd : String → Option Int) (c : FirebaseClient)
    (filters : Option (List (String × PyVal))) :
    Except String (List (List (String × PyVal))) :=
  searchCollection pd c "versions" filters

/-- `FirebaseClient.search_comments`. -/
def search_comments (pd : String → Option Int) (c : FirebaseClient)
    (filters : Option (List (String × PyVal))) :
    Except String (List (List (String × PyVal))) :=
  searchCollection pd c "comments" filters

/-- `blob.content_type` as the Python value it compares equal to. -/
def ctVal : Option String → PyVal
  | none => .vnone
  | some s => .vstr s

/-- `datetime.isoformat()`, modelled as an injective rendering of the
timestamp. -/
def isoformat (t : Int) : String := "iso:" ++ toString t

/-- The message of the `TypeError` Python raises when the code compares a
`None` `time_created` with a datetime (`blob.time_created < filter_date`);
it is not a `ValueError`, so the inner handler does not catch it. -/
def cmpErrMsg : String := "TypeError: comparison of NoneType and datetime"

/-- The `file_info` dict built for a surviving blob. -/
def fileInfo (b : Blob) : List (String × PyVal) :=
  [("name", .vstr b.name),
   ("size", .vint b.size),
   ("contentType", ctVal b.content_type),
   ("uploadedAt", match b.time_created with
                  | some t => .vstr (isoformat t)
                  | none => .vnone),
   ("downloadUrl", .vstr b.public_url),
   ("etag", .vstr b.etag),
   ("generation", .vint b.generation)]

/-- `filters.get(k, d) if filters else d`: how `search_asset_files` reads
each recognized key (a key stored with value `None` behaves like an absent
key once the default is `None`). -/
def getFilter (filters : Option (List (String × PyVal))) (k : String)
    (d : PyVal) : PyVal :=
  match filters with
  | none => d
  | some fs => (lookupKey fs k).getD d

/-- The loop body of `search_asset_files` for one blob: `ok none` means the
blob was skipped by `continue`, `ok (some r)` that its `file_info` record
is appended, `error` that an exception escaped the loop (only the
`None`-timestamp comparison raises one; a date-parse `ValueError` is caught
and the date filter skipped). -/
def blobStep (pd : String → Option Int) (ctf uaf : PyVal) (b : Blob) :
    Except String (Option (List (String × PyVal))) :=
  if truthy ctf && !(pyEq (ctVal b.content_type) ctf) then .ok none
  else
    match uaf with
    | .vstr s =>
        if truthy (.vstr s) then
          if strStartsWith s ">=" then
            match pd (strDrop s 2) with
            | some d =>
                match b.time_created with
                | none => .error cmpErrMsg
                | some t => if t < d then .ok none else .ok (some (fileInfo b))
            | none => .ok (some (fileInfo b))
          else if strStartsWith s "<=" then
            match pd (strDrop s 2) with
            | some d =>
                match b.time_created with
                | none => .error cmpErrMsg
                | some t => if d < t then .ok none else .ok (some (fileInfo b))
            | none => .ok (some (fileInfo b))
          else .ok (some (fileInfo b))
        else .ok (some (fileInfo b))
    | _ => .ok (some (fileInfo b))

/-- The `for blob in blobs` loop of `search_asset_files`: collect the
surviving records; an exception aborts the whole call. -/
def scanBlobs (pd : String → Option Int) (ctf uaf : PyVal) :
    List Blob → Except String (List (List (String × PyVal)))
  | [] => .ok []
  | b :: rest =>
      match blobStep pd ctf uaf b with
      | .error m => .error m
      | .ok none => scanBlobs pd ctf uaf rest
      | .ok (some r) =>
          match scanBlobs pd ctf uaf rest with
          | .error m => .error m
          | .ok rs => .ok (r :: rs)

/-- `FirebaseClient.search_asset_files`: read the three recognized filter
keys, list blobs by prefix, scan them; the outer `except` re-raises every
exception unchanged. -/
def search_asset_files (pd : String → Option Int) (c : FirebaseClient)
    (filters : Option (List (String × PyVal))) :
    Except String (List (List (String × PyVal))) :=
  match c.getBucket with
  | .error m => .error m
  | .ok bucket =>
      let pref := getFilter filters "prefix" (.vstr "")
      let ctf := getFilter filters "contentType" .vnone
      let uaf := getFilter filters "uploadedAt" .vnone
      match bucket.list_blobs pref with
      | .error m => .error m
      | .ok bs => scanBlobs pd ctf uaf bs

/-- A sample datetime parser for concrete instances: accepts the date of
the worked examples and rejects everything else. -/
def toyParse : String → Option Int
  | "2024-06-01" => some 20240601
  | _ => none

/-- Sample document whose stored data already carries a stale `id` field. -/
def docPublic : Doc :=
  ⟨"a1", [("visibility", PyVal.vstr "public"), ("id", PyVal.vstr "stale")]⟩

/-- Second sample document. -/
def docPrivate : Doc := ⟨"b2", [("visibility", PyVal.vstr "private")]⟩

/-- A healthy sample store holding the two documents in every collection. -/
def sampleDb : Firestore := ⟨fun _ => [docPublic, docPrivate], fun _ => none⟩

/-- Sample blob with content type `image/jpeg`. -/
def blobJpg : Blob := ⟨"assets/a.jpg", 10, some "image/jpeg", some 5, "urlA", "etagA", 1⟩

/-- Sample blob with content type `image/png`. -/
def blobPng : Blob := ⟨"assets/b.png", 20, some "image/png", some 6, "urlB", "etagB", 2⟩

/-- The bucket of concrete scenario 3: one jpeg and one png under `assets/`. -/
def sampleBucket : Bucket := ⟨[blobJpg, blobPng], none⟩

/-- A healthy initialized client over the sample store and bucket. -/
def sampleClient : FirebaseClient := ⟨some sampleDb, some sampleBucket⟩

/-- A blob whose store reports no creation timestamp. -/
def blobNull : Blob := ⟨"assets/n.gif", 1, some "image/gif", none, "urlN", "etagN", 3⟩

/-- A bucket holding a timestamped jpeg and the timestampless blob. -/
def nullBucket : Bucket := ⟨[blobJpg, blobNull], none⟩

/-- An initialized client over `nullBucket`. -/
def nullClient : FirebaseClient := ⟨some sampleDb, some nullBucket⟩

/-- A store whose every collection fails to stream. -/
def failDb : Firestore := ⟨fun _ => [], fun _ => some "upstream store failure"⟩

/-- A bucket whose listing fails. -/
def failBucket : Bucket := ⟨[], some "upstream listing failure"⟩

/-- An initialized client whose underlying store operations all fail. -/
def failClient : FirebaseClient := ⟨some failDb, some failBucket⟩

theorem applyFilters_eq_filterMap (pd : String → Option Int) :
    ∀ (fs : List (String × PyVal)) (q : List Clause),
      applyFilters pd q fs = q ++ fs.filterMap (fun p => clauseOf pd p.1 p.2)
  | [], q => by simp [applyFilters]
  | (f, v) :: rest, q => by
      cases v with
      | vstr s =>
          by_cases hge : strStartsWith s ">=" = true
          · cases hpd : pd (strDrop s 2) with
            | none =>
                simp [applyFilters, clauseOf, hge, hpd,
                  applyFilters_eq_filterMap pd rest]
            | some d =>
                simp [applyFilters, clauseOf, hge, hpd,
                  applyFilters_eq_filterMap pd rest]
          · by_cases hle : strStartsWith s "<=" = true
            · cases hpd : pd (strDrop s 2) with
              | none =>
                  simp [applyFilters, clauseOf, hge, hle, hpd,
                    applyFilters_eq_filterMap pd rest]
              | some d =>
                  simp [applyFilters, clauseOf, hge, hle, hpd,
                    applyFilters_eq_filterMap pd rest]
            · simp [applyFilters, clauseOf, hge, hle,
                applyFilters_eq_filterMap pd rest]
      | vint n => simp [applyFilters, clauseOf, applyFilters_eq_filterMap pd rest]
      | vdate t => simp [applyFilters, clauseOf, applyFilters_eq_filterMap pd rest]
      | vnone => simp [applyFilters, clauseOf, applyFilters_eq_filterMap pd rest]
      | vlist l => simp [applyFilters, clauseOf, applyFilters_eq_filterMap pd rest]

theorem clausesOfFilters_some (pd : String → Option Int)
    (fs : List (String × PyVal)) :
    clausesOfFilters pd (some fs) = fs.filterMap (fun p => clauseOf pd p.1 p.2) := by
  unfold clausesOfFilters
  by_cases h : fs.isEmpty
  · have h2 : fs = [] := by simpa using h
    subst h2; simp
  · simp [h, applyFilters_eq_filterMap]

theorem searchCollection_congr (pd : String → Option Int) (c : FirebaseClient)
    (col : String) {f1 f2 : Option (List (String × PyVal))}
    (h : clausesOfFilters pd f1 = clausesOfFilters pd f2) :
    searchCollection pd c col f1 = searchCollection pd c col f2 := by
  unfold searchCollection; rw [h]

theorem lookupKey_setKey_same : ∀ (d : List (String × PyVal)) (k : String) (v : PyVal),
    lookupKey (setKey d k v) k = some v
  | [], k, v => by simp [setKey, lookupKey]
  | (k0, v0) :: rest, k, v => by
      by_cases h : k0 = k
      · subst h; simp [setKey, lookupKey]
      · simp [setKey, lookupKey, h, lookupKey_setKey_same rest k v]

theorem lookupKey_setKey_other :
    ∀ (d : List (String × PyVal)) (k k' : String) (v : PyVal), k' ≠ k →
      lookupKey (setKey d k v) k' = lookupKey d k'
  | [], k, k', v, h => by simp [setKey, lookupKey, Ne.symm h]
  | (k0, v0) :: rest, k, k', v, h => by
      by_cases h0 : k0 = k
      · subst h0; simp [setKey, lookupKey, Ne.symm h]
      · simp [setKey, lookupKey, h0, lookupKey_setKey_other rest k k' v h]

theorem searchCollection_mem (pd : String → Option Int) (c : FirebaseClient)
    (col : String) (fs : Option (List (String × PyVal))) (db : Firestore)
    (hdb : c._db = some db) (hf : db.fail col = none) :
    ∃ rs, searchCollection pd c col fs = .ok rs ∧
      ∀ r ∈ rs, ∃ d ∈ db.docs col, r = normalizeDoc d := by
  refine ⟨((db.docs col).filter
      (fun d => (clausesOfFilters pd fs).all (fun cl => docMatches d cl))).map
      normalizeDoc, ?_, ?_⟩
  · simp [searchCollection, FirebaseClient.getDb, hdb, Firestore.stream, hf]
  · intro r hr
    obtain ⟨d, hd, rfl⟩ := List.mem_map.mp hr
    exact ⟨d, (List.mem_filter.mp hd).1, rfl⟩

theorem scanBlobs_noDate (pd : String → Option Int) (ctf : PyVal) :
    ∀ bs : List Blob, scanBlobs pd ctf PyVal.vnone bs =
      .ok ((bs.filter
        (fun b => !(truthy ctf && !(pyEq (ctVal b.content_type) ctf)))).map fileInfo)
  | [] => by simp [scanBlobs]
  | b :: rest => by
      cases ht : truthy ctf with
      | false => simp [scanBlobs, blobStep, ht, scanBlobs_noDate pd ctf rest]
      | true =>
          cases hp : pyEq (ctVal b.content_type) ctf with
          | false => simp [scanBlobs, blobStep, ht, hp, scanBlobs_noDate pd ctf rest]
          | true => simp [scanBlobs, blobStep, ht, hp, scanBlobs_noDate pd ctf rest]

theorem blobStep_error_msg {pd : String → Option Int} {ctf uaf : PyVal}
    {b : Blob} {e : String} (h : blobStep pd ctf uaf b = .error e) :
    e = cmpErrMsg := by
  unfold blobStep at h
  repeat' split at h
  all_goals simp_all

theorem scanBlobs_error_of_mem {pd : String → Option Int} {ctf uaf : PyVal}
    {bs : List Blob} {b : Blob} (hb : b ∈ bs)
    (he : blobStep pd ctf uaf b = .error cmpErrMsg) :
    scanBlobs pd ctf uaf bs = .error cmpErrMsg := by
  induction bs with
  | nil => cases hb
  | cons b0 rest ih =>
      rcases List.mem_cons.mp hb with rfl | hb2
      · simp [scanBlobs, he]
      · cases h0 : blobStep pd ctf uaf b0 with
        | error m =>
            have hm := blobStep_error_msg h0
            subst hm
            simp [scanBlobs, h0]
        | ok o =>
            cases o with
            | none => simp [scanBlobs, h0, ih hb2]
            | some r => simp [scanBlobs, h0, ih hb2]

theorem strStartsWith_ne_empty {s p : String} (hp : p.data ≠ [])
    (h : strStartsWith s p = true) : (s == "") = false := by
  cases s with
  | mk l =>
      cases l with
      | nil =>
          cases p with
          | mk pl =>
              cases pl with
              | nil => exact absurd rfl hp
              | cons a as => simp [strStartsWith, List.isPrefixOf] at h
      | cons c cs => simp [String.ext_iff]

theorem except_total {α : Type} (x : Except String α) :
    (∃ e, x = .error e) ∨ (∃ rs, x = .ok rs) := by
  cases x with
  | error e => exact Or.inl ⟨e, rfl⟩
  | ok rs => exact Or.inr ⟨rs, rfl⟩

theorem clauseOf_badDate {pd : String → Option Int} {f s : String}
    (hpref : strStartsWith s ">=" = true ∨ strStartsWith s "<=" = true)
    (hbad : pd (strDrop s 2) = none) :
    clauseOf pd f (PyVal.vstr s) = none := by
  by_cases hge : strStartsWith s ">=" = true
  · simp [clauseOf, hge, hbad]
  · rcases hpref with h | h
    · exact absurd h hge
    · simp [clauseOf, hge, h, hbad]

/-- C1: a filter field whose value is a string starting with `">="` or
`"<="` whose remainder fails to parse compiles to no clause, and each
collection search returns exactly what the same call without that field
returns (no error). -/
theorem unparsableDate_clauseSkipped_resultUnchanged (pd : String → Option Int)
    (c : FirebaseClient) (pre post : List (String × PyVal)) (f s : String)
    (hpref : strStartsWith s ">=" = true ∨ strStartsWith s "<=" = true)
    (hbad : pd (strDrop s 2) = none) :
    applyFilters pd [] (pre ++ (f, PyVal.vstr s) :: post) =
      applyFilters pd [] (pre ++ post) ∧
    search_assets pd c (some (pre ++ (f, PyVal.vstr s) :: post)) =
      search_assets pd c (some (pre ++ post)) ∧
    search_versions pd c (some (pre ++ (f, PyVal.vstr s) :: post)) =
      search_versions pd c (some (pre ++ post)) ∧
    search_comments pd c (some (pre ++ (f, PyVal.vstr s) :: post)) =
      search_comments pd c (some (pre ++ post)) := by
  have hco : clauseOf pd f (PyVal.vstr s) = none := clauseOf_badDate hpref hbad
  have hap : applyFilters pd [] (pre ++ (f, PyVal.vstr s) :: post) =
      applyFilters pd [] (pre ++ post) := by
    rw [applyFilters_eq_filterMap, applyFilters_eq_filterMap]
    simp [List.filterMap_append, List.filterMap_cons, hco]
  have hcl : clausesOfFilters pd (some (pre ++ (f, PyVal.vstr s) :: post)) =
      clausesOfFilters pd (some (pre ++ post)) := by
    rw [clausesOfFilters_some, clausesOfFilters_some]
    simp [List.filterMap_append, List.filterMap_cons, hco]
  exact ⟨hap, searchCollection_congr pd c "assets" hcl,
    searchCollection_congr pd c "versions" hcl,
    searchCollection_congr pd c "comments" hcl⟩

theorem unparsableDate_clauseSkipped_resultUnchanged_witness :
    strStartsWith ">=not-a-date" ">=" = true ∧
    toyParse (strDrop ">=not-a-date" 2) = none ∧
    search_assets toyParse sampleClient
        (some [("uploadedAt", PyVal.vstr ">=not-a-date")]) =
      search_assets toyParse sampleClient (some []) :=
  ⟨rfl, rfl,
    (unparsableDate_clauseSkipped_resultUnchanged toyParse sampleClient [] []
      "uploadedAt" ">=not-a-date" (Or.inl rfl) rfl).2.1⟩

/-- C2: every record returned by the three collection searches carries an
`id` field equal to the document's store-assigned key, overwriting any
stored `id`, while every other stored field is looked up unchanged. -/
theorem collectionRecords_id_overwritten (pd : String → Option Int)
    (c : FirebaseClient) (db : Firestore) (fs : Option (List (String × PyVal)))
    (hdb : c._db = some db) (ha : db.fail "assets" = none)
    (hv : db.fail "versions" = none) (hc : db.fail "comments" = none) :
    (∃ rs, search_assets pd c fs = .ok rs ∧ ∀ r ∈ rs, ∃ d ∈ db.docs "assets",
        lookupKey r "id" = some (PyVal.vstr d.id) ∧
        ∀ k, k ≠ "id" → lookupKey r k = lookupKey d.data k) ∧
    (∃ rs, search_versions pd c fs = .ok rs ∧ ∀ r ∈ rs, ∃ d ∈ db.docs "versions",
        lookupKey r "id" = some (PyVal.vstr d.id) ∧
        ∀ k, k ≠ "id" → lookupKey r k = lookupKey d.data k) ∧
    (∃ rs, search_comments pd c fs = .ok rs ∧ ∀ r ∈ rs, ∃ d ∈ db.docs "comments",
        lookupKey r "id" = some (PyVal.vstr d.id) ∧
        ∀ k, k ≠ "id" → lookupKey r k = lookupKey d.data k) := by
  have key : ∀ col, db.fail col = none →
      ∃ rs, searchCollection pd c col fs = .ok rs ∧
        ∀ r ∈ rs, ∃ d ∈ db.docs col,
          lookupKey r "id" = some (PyVal.vstr d.id) ∧
          ∀ k, k ≠ "id" → lookupKey r k = lookupKey d.data k := by
    intro col hf
    obtain ⟨rs, hrs, hmem⟩ := searchCollection_mem pd c col fs db hdb hf
    refine ⟨rs, hrs, ?_⟩
    intro r hr
    obtain ⟨d, hd, rfl⟩ := hmem r hr
    refine ⟨d, hd, ?_, ?_⟩
    · simpa [normalizeDoc] using lookupKey_setKey_same d.data "id" (PyVal.vstr d.id)
    · intro k hk
      simpa [normalizeDoc] using
        lookupKey_setKey_other d.data "id" k (PyVal.vstr d.id) hk
  exact ⟨key "assets" ha, key "versions" hv, key "comments" hc⟩

theorem collectionRecords_id_overwritten_witness :
    ∃ rs, search_assets toyParse sampleClient none = .ok rs ∧
      ∀ r ∈ rs, ∃ d ∈ sampleDb.docs "assets",
        lookupKey r "id" = some (PyVal.vstr d.id) ∧
        ∀ k, k ≠ "id" → lookupKey r k = lookupKey d.data k :=
  (collectionRecords_id_overwritten toyParse sampleClient sampleDb none
    rfl rfl rfl rfl).1

/-- C3: a filter field whose value is a list always compiles to exactly one
`array_contains_any` clause with the list as given as its operand, whatever
its length (the empty list included). -/
theorem listValue_compilesTo_arrayContainsAny (pd : String → Option Int)
    (q : List Clause) (pre post : List (String × PyVal)) (f : String)
    (l : List PyVal) :
    applyFilters pd q (pre ++ (f, PyVal.vlist l) :: post) =
      applyFilters pd q pre ++ [⟨f, "array_contains_any", PyVal.vlist l⟩] ++
        applyFilters pd [] post := by
  simp [applyFilters_eq_filterMap, clauseOf, List.filterMap_append,
    List.filterMap_cons]

/-- C4: each of the four listing operations invoked before initialization
fails at once with the distinguishable "not initialized" error; none
returns a record list. -/
theorem uninitializedClient_failsFast (pd : String → Option Int)
    (fs : Option (List (String × PyVal))) (c : FirebaseClient)
    (hdb : c._db = none) (hbk : c._bucket = none) :
    search_assets pd c fs = .error notInitMsg ∧
    search_versions pd c fs = .error notInitMsg ∧
    search_comments pd c fs = .error notInitMsg ∧
    search_asset_files pd c fs = .error notInitMsg := by
  refine ⟨?_, ?_, ?_, ?_⟩ <;>
    simp [search_assets, search_versions, search_comments, search_asset_files,
      searchCollection, FirebaseClient.getDb, FirebaseClient.getBucket, hdb, hbk]

theorem uninitializedClient_failsFast_witness :
    search_assets toyParse ⟨none, none⟩ none = .error notInitMsg ∧
    search_versions toyParse ⟨none, none⟩ none = .error notInitMsg ∧
    search_comments toyParse ⟨none, none⟩ none = .error notInitMsg ∧
    search_asset_files toyParse ⟨none, none⟩ none = .error notInitMsg :=
  uninitializedClient_failsFast toyParse none ⟨none, none⟩ rfl rfl

/-- C5: a failure of the underlying store propagates out of each of the
four operations with its original message, and every call is total in the
sense that it either fails or returns one record list. -/
theorem storeFailure_propagatesVerbatim (pd : String → Option Int)
    (fs : Option (List (String × PyVal))) (c : FirebaseClient)
    (db : Firestore) (bkt : Bucket) (m1 m2 m3 m4 : String)
    (hdb : c._db = some db) (hbk : c._bucket = some bkt)
    (h1 : db.fail "assets" = some m1) (h2 : db.fail "versions" = some m2)
    (h3 : db.fail "comments" = some m3) (h4 : bkt.listFail = some m4) :
    (search_assets pd c fs = .error m1 ∧
     search_versions pd c fs = .error m2 ∧
     search_comments pd c fs = .error m3 ∧
     search_asset_files pd c fs = .error m4) ∧
    (∀ (pd2 : String → Option Int) (c2 : FirebaseClient)
        (fs2 : Option (List (String × PyVal))),
      ((∃ e, search_assets pd2 c2 fs2 = .error e) ∨
        (∃ rs, search_assets pd2 c2 fs2 = .ok rs)) ∧
      ((∃ e, search_versions pd2 c2 fs2 = .error e) ∨
        (∃ rs, search_versions pd2 c2 fs2 = .ok rs)) ∧
      ((∃ e, search_comments pd2 c2 fs2 = .error e) ∨
        (∃ rs, search_comments pd2 c2 fs2 = .ok rs)) ∧
      ((∃ e, search_asset_files pd2 c2 fs2 = .error e) ∨
        (∃ rs, search_asset_files pd2 c2 fs2 = .ok rs))) := by
  constructor
  · refine ⟨?_, ?_, ?_, ?_⟩ <;>
      simp [search_assets, search_versions, search_comments, search_asset_files,
        searchCollection, FirebaseClient.getDb, FirebaseClient.getBucket,
        Firestore.stream, Bucket.list_blobs, hdb, hbk, h1, h2, h3, h4]
  · intro pd2 c2 fs2
    exact ⟨except_total _, except_total _, except_total _, except_total _⟩

theorem storeFailure_propagatesVerbatim_witness :
    search_assets toyParse failClient none = .error "upstream store failure" ∧
    search_asset_files toyParse failClient none =
      .error "upstream listing failure" := by
  have h := storeFailure_propagatesVerbatim toyParse none failClient failDb
    failBucket "upstream store failure" "upstream store failure"
    "upstream store failure" "upstream listing failure" rfl rfl rfl rfl rfl rfl
  exact ⟨h.1.1, h.1.2.2.2⟩

/-- C6 counterexample: with the filter `{"contentType": ""}` (a present
key whose value is falsy), the blob whose content type `"image/jpeg"` is
not equal to the filter value is nevertheless kept, so the claim that
every mismatching item is discarded whenever the key is present is false. -/
theorem contentTypeFalsy_keptDespiteMismatch :
    pyEq (ctVal blobJpg.content_type) (PyVal.vstr "") = false ∧
    search_asset_files toyParse sampleClient
        (some [("contentType", PyVal.vstr "")]) =
      .ok [fileInfo blobJpg, fileInfo blobPng] :=
  ⟨rfl, rfl⟩

/-- C6 (amended): when the filter holds a `contentType` key with a truthy
value, an item is kept exactly when its content type equals the value;
the jpeg/png scenario follows at the witness. -/
theorem contentTypeTruthy_exactEqualityFilter (pd : String → Option Int)
    (c : FirebaseClient) (bkt : Bucket) (pv : String) (ctv : PyVal)
    (hbk : c._bucket = some bkt) (hl : bkt.listFail = none)
    (ht : truthy ctv = true) :
    search_asset_files pd c
        (some [("prefix", PyVal.vstr pv), ("contentType", ctv)]) =
      .ok (((bkt.blobs.filter (fun b => strStartsWith b.name pv)).filter
        (fun b => pyEq (ctVal b.content_type) ctv)).map fileInfo) := by
  simp [search_asset_files, FirebaseClient.getBucket, hbk, getFilter, lookupKey,
    Bucket.list_blobs, hl, scanBlobs_noDate, ht]

theorem contentTypeTruthy_exactEqualityFilter_witness :
    truthy (PyVal.vstr "image/png") = true ∧
    search_asset_files toyParse sampleClient
        (some [("prefix", PyVal.vstr "assets/"),
               ("contentType", PyVal.vstr "image/png")]) =
      .ok [fileInfo blobPng] := by
  refine ⟨rfl, ?_⟩
  have h := contentTypeTruthy_exactEqualityFilter toyParse sampleClient
    sampleBucket "assets/" (PyVal.vstr "image/png") rfl rfl rfl
  exact h.trans (by rfl)

/-- C7: over the same prefix, adding a `contentType` filter never increases
the number of returned records. -/
theorem contentTypeFilter_monotone (pd : String → Option Int)
    (c : FirebaseClient) (bkt : Bucket) (pv : String) (ctv : PyVal)
    (hbk : c._bucket = some bkt) (hl : bkt.listFail = none) :
    ∃ rWith rWithout,
      search_asset_files pd c
          (some [("prefix", PyVal.vstr pv), ("contentType", ctv)]) = .ok rWith ∧
      search_asset_files pd c (some [("prefix", PyVal.vstr pv)]) = .ok rWithout ∧
      rWith.length ≤ rWithout.length := by
  have h1 : search_asset_files pd c
      (some [("prefix", PyVal.vstr pv), ("contentType", ctv)]) =
      .ok (((bkt.blobs.filter (fun b => strStartsWith b.name pv)).filter
        (fun b => !(truthy ctv && !(pyEq (ctVal b.content_type) ctv)))).map
        fileInfo) := by
    simp [search_asset_files, FirebaseClient.getBucket, hbk, getFilter,
      lookupKey, Bucket.list_blobs, hl, scanBlobs_noDate]
  have h2 : search_asset_files pd c (some [("prefix", PyVal.vstr pv)]) =
      .ok ((bkt.blobs.filter (fun b => strStartsWith b.name pv)).map fileInfo) := by
    simp [search_asset_files, FirebaseClient.getBucket, hbk, getFilter,
      lookupKey, Bucket.list_blobs, hl, scanBlobs_noDate, truthy]
  refine ⟨_, _, h1, h2, ?_⟩
  simp only [List.length_map]
  exact List.length_filter_le _ _

theorem contentTypeFilter_monotone_witness :
    ∃ rWith rWithout,
      search_asset_files toyParse sampleClient
          (some [("prefix", PyVal.vstr "assets/"),
                 ("contentType", PyVal.vstr "image/png")]) = .ok rWith ∧
      search_asset_files toyParse sampleClient
          (some [("prefix", PyVal.vstr "assets/")]) = .ok rWithout ∧
      rWith.length ≤ rWithout.length :=
  contentTypeFilter_monotone toyParse sampleClient sampleBucket "assets/"
    (PyVal.vstr "image/png") rfl rfl

/-- C8: a filter field whose value is neither a `">="`/`"<="`-prefixed
string nor a list compiles to exactly one equality clause carrying the
value verbatim. -/
theorem plainValue_compilesTo_equality (pd : String → Option Int)
    (q : List Clause) (pre post : List (String × PyVal)) (f : String)
    (v : PyVal)
    (hstr : ∀ s, v = PyVal.vstr s →
      strStartsWith s ">=" = false ∧ strStartsWith s "<=" = false)
    (hlist : ∀ l, v ≠ PyVal.vlist l) :
    applyFilters pd q (pre ++ (f, v) :: post) =
      applyFilters pd q pre ++ [⟨f, "==", v⟩] ++ applyFilters pd [] post := by
  have hco : clauseOf pd f v = some ⟨f, "==", v⟩ := by
    cases v with
    | vstr s =>
        obtain ⟨hg, hl⟩ := hstr s rfl
        simp [clauseOf, hg, hl]
    | vlist l => exact absurd rfl (hlist l)
    | vint n => rfl
    | vdate t => rfl
    | vnone => rfl
  simp [applyFilters_eq_filterMap, List.filterMap_append, List.filterMap_cons,
    hco]

theorem plainValue_compilesTo_equality_witness :
    applyFilters toyParse [] [("a", PyVal.vstr "x"), ("n", PyVal.vint 7)] =
      applyFilters toyParse [] [("a", PyVal.vstr "x")] ++
        [⟨"n", "==", PyVal.vint 7⟩] ++ applyFilters toyParse [] [] :=
  plainValue_compilesTo_equality toyParse [] [("a", PyVal.vstr "x")] [] "n"
    (PyVal.vint 7) (fun _ h => PyVal.noConfusion h)
    (fun _ h => PyVal.noConfusion h)

/-- C9: each of the four listing operations with an absent or empty filter
mapping returns all documents of its collection (normalized) resp. all
blobs of the bucket, with no exclusions. -/
theorem emptyFilter_returnsEverything (pd : String → Option Int)
    (c : FirebaseClient) (db : Firestore) (bkt : Bucket)
    (hdb : c._db = some db) (hbk : c._bucket = some bkt)
    (ha : db.fail "assets" = none) (hv : db.fail "versions" = none)
    (hc : db.fail "comments" = none) (hl : bkt.listFail = none) :
    (search_assets pd c none = .ok ((db.docs "assets").map normalizeDoc) ∧
     search_assets pd c (some []) = .ok ((db.docs "assets").map normalizeDoc)) ∧
    (search_versions pd c none = .ok ((db.docs "versions").map normalizeDoc) ∧
     search_versions pd c (some []) = .ok ((db.docs "versions").map normalizeDoc)) ∧
    (search_comments pd c none = .ok ((db.docs "comments").map normalizeDoc) ∧
     search_comments pd c (some []) = .ok ((db.docs "comments").map normalizeDoc)) ∧
    (search_asset_files pd c none = .ok (bkt.blobs.map fileInfo) ∧
     search_asset_files pd c (some []) = .ok (bkt.blobs.map fileInfo)) := by
  have hcols : ∀ col, db.fail col = none →
      ∀ fs2, clausesOfFilters pd fs2 = [] →
        searchCollection pd c col fs2 = .ok ((db.docs col).map normalizeDoc) := by
    intro col hf fs2 hcl
    simp [searchCollection, FirebaseClient.getDb, hdb, Firestore.stream, hf,
      hcl, List.filter_true]
  have hfiles : ∀ fs2, getFilter fs2 "prefix" (.vstr "") = .vstr "" →
      getFilter fs2 "contentType" .vnone = .vnone →
      getFilter fs2 "uploadedAt" .vnone = .vnone →
      search_asset_files pd c fs2 = .ok (bkt.blobs.map fileInfo) := by
    intro fs2 hp hct hua
    simp [search_asset_files, FirebaseClient.getBucket, hbk, hp, hct, hua,
      Bucket.list_blobs, hl, scanBlobs_noDate, truthy, strStartsWith,
      List.filter_true]
  exact ⟨⟨hcols "assets" ha none rfl, hcols "assets" ha (some []) rfl⟩,
    ⟨hcols "versions" hv none rfl, hcols "versions" hv (some []) rfl⟩,
    ⟨hcols "comments" hc none rfl, hcols "comments" hc (some []) rfl⟩,
    ⟨hfiles none rfl rfl rfl, hfiles (some []) rfl rfl rfl⟩⟩

theorem emptyFilter_returnsEverything_witness :
    search_assets toyParse sampleClient none =
      .ok ((sampleDb.docs "assets").map normalizeDoc) ∧
    search_asset_files toyParse sampleClient none =
      .ok (sampleBucket.blobs.map fileInfo) := by
  have h := emptyFilter_returnsEverything toyParse sampleClient sampleDb
    sampleBucket rfl rfl rfl rfl rfl rfl
  exact ⟨h.1.1, h.2.2.2.1⟩

/-- C10 counterexample: the filter holds a well-formed `uploadedAt` bound
and a listed item (`blobNull`) has no creation timestamp, yet the call
succeeds, because the `contentType` filter discards that item before the
timestamp comparison runs. -/
theorem nullTimestamp_discardedFirst_callSucceeds :
    toyParse "2024-06-01" = some 20240601 ∧
    blobNull.time_created = none ∧
    search_asset_files toyParse nullClient
        (some [("contentType", PyVal.vstr "image/jpeg"),
               ("uploadedAt", PyVal.vstr ">=2024-06-01")]) = .ok [] :=
  ⟨rfl, rfl, rfl⟩

/-- C10 (amended): with a well-formed `uploadedAt` bound, if some listed
item under the prefix that is not discarded by the `contentType` filter
has no creation timestamp, the whole call fails with the propagated
comparison error. -/
theorem nullTimestamp_survivingBlob_failsWhole (pd : String → Option Int)
    (c : FirebaseClient) (bkt : Bucket) (fs : Option (List (String × PyVal)))
    (s pv : String) (d : Int) (b : Blob)
    (hbk : c._bucket = some bkt) (hl : bkt.listFail = none)
    (hpv : getFilter fs "prefix" (PyVal.vstr "") = PyVal.vstr pv)
    (hua : getFilter fs "uploadedAt" PyVal.vnone = PyVal.vstr s)
    (hform : strStartsWith s ">=" = true ∨
      (strStartsWith s ">=" = false ∧ strStartsWith s "<=" = true))
    (hparse : pd (strDrop s 2) = some d)
    (hmem : b ∈ bkt.blobs) (hname : strStartsWith b.name pv = true)
    (hnull : b.time_created = none)
    (hct : (truthy (getFilter fs "contentType" PyVal.vnone) &&
        !(pyEq (ctVal b.content_type)
          (getFilter fs "contentType" PyVal.vnone))) = false) :
    search_asset_files pd c fs = .error cmpErrMsg := by
  have hs0 : (s == "") = false := by
    rcases hform with h | ⟨h1, h2⟩
    · exact strStartsWith_ne_empty (by decide) h
    · exact strStartsWith_ne_empty (by decide) h2
  have hstep : blobStep pd (getFilter fs "contentType" PyVal.vnone)
      (PyVal.vstr s) b = .error cmpErrMsg := by
    unfold blobStep
    rw [hct]
    rcases hform with h | ⟨h1, h2⟩
    · simp [truthy, hs0, h, hparse, hnull]
    · simp [truthy, hs0, h1, h2, hparse, hnull]
  simp only [search_asset_files, FirebaseClient.getBucket, hbk, hpv, hua,
    Bucket.list_blobs, hl]
  exact scanBlobs_error_of_mem (List.mem_filter.mpr ⟨hmem, hname⟩) hstep

theorem nullTimestamp_survivingBlob_failsWhole_witness :
    search_asset_files toyParse nullClient
        (some [("uploadedAt", PyVal.vstr ">=2024-06-01")]) =
      .error cmpErrMsg :=
  nullTimestamp_survivingBlob_failsWhole toyParse nullClient nullBucket
    (some [("uploadedAt", PyVal.vstr ">=2024-06-01")]) ">=2024-06-01" ""
    20240601 blobNull rfl rfl rfl rfl (Or.inl rfl) rfl
    (by simp [nullBucket]) rfl rfl rfl
